import Mathlib

/-
  Verification development for the CloudStream-Studio clip-authoring front end.

  Shallow embedding of the trim/playback engine, the clip factory, the
  optimize-job poller and the thumbnail lazy loader of
  `src/components/Player.tsx` (Player and VideoLibrary components).

  Time values are modelled as exact rationals (ℚ).  JavaScript numbers that
  can be NaN are modelled as `Option ℚ` / `Option ℤ` with `none` standing for
  NaN.  Strings are modelled as `List Char`.
-/

namespace CloudStream

/-! ## JavaScript numeric primitives used by the source -/

/-- JS `Math.floor` on exact rationals (`Rat.floor` is the kernel-reducible
floor from Batteries; `jfloor_eq` below identifies it with `⌊·⌋`). -/
def jfloor (q : ℚ) : ℤ := Rat.floor q

/-- JS `Math.ceil` on exact rationals, as `-⌊-q⌋`. -/
def jceil (q : ℚ) : ℤ := -Rat.floor (-q)

/-- JS `Math.round`: round half-up towards +∞. -/
def jround (q : ℚ) : ℤ := jfloor (q + 1 / 2)

/-- `roundToPrecision(value, 3)` from Player.tsx lines 48–51:
`Math.round(value * 1000) / 1000`. -/
def round3 (q : ℚ) : ℚ := (jround (q * 1000) : ℚ) / 1000

/-- JS remainder `a % b`: keeps the sign of the dividend
(`a - b * truncate(a / b)`). -/
def jsRem (a b : ℚ) : ℚ :=
  a - b * ((if a / b < 0 then jceil (a / b) else jfloor (a / b) : ℤ) : ℚ)

/-! ## Decimal digit strings (JS `Number.prototype.toString` for integers) -/

def digitChar (n : ℕ) : Char := Char.ofNat (48 + n)

/-- Fuel-driven decimal digit expansion (structural recursion on the fuel);
`fuel > n` suffices because `n / 10 < n` once `n ≥ 10`. -/
def natDigitsAux : ℕ → ℕ → List Char
  | 0, _ => []
  | f + 1, n =>
    if n < 10 then [digitChar n]
    else natDigitsAux f (n / 10) ++ [digitChar (n % 10)]

/-- Decimal representation of a natural number, most significant digit first. -/
def natDigits (n : ℕ) : List Char := natDigitsAux (n + 1) n

/-- Decimal representation of an integer (template-literal form `${i}`). -/
def intChars (i : ℤ) : List Char :=
  if i < 0 then '-' :: natDigits i.natAbs else natDigits i.toNat

/-- JS `String.prototype.padStart(k, '0')`. -/
def padStartZeros (k : ℕ) (l : List Char) : List Char :=
  List.replicate (k - l.length) '0' ++ l

/-- JS `String.prototype.padEnd(k, '0')`. -/
def padEndZeros (k : ℕ) (l : List Char) : List Char :=
  l ++ List.replicate (k - l.length) '0'

/-! ## JS string splitting and integer parsing -/

/-- JS `String.prototype.split(sep)` for a single-character separator. -/
def jsSplit (sep : Char) : List Char → List (List Char)
  | [] => [[]]
  | c :: rest =>
    if c = sep then [] :: jsSplit sep rest
    else
      match jsSplit sep rest with
      | [] => [[c]]
      | h :: t => (c :: h) :: t

/-- Decimal digit test by character code (codes 48–57). -/
def isDigitCh (c : Char) : Bool := 48 ≤ c.toNat && c.toNat ≤ 57

/-- JS whitespace test by character code (space, tab, LF, CR). -/
def isSpaceCh (c : Char) : Bool :=
  c.toNat = 32 || c.toNat = 9 || c.toNat = 10 || c.toNat = 13

/-- Value of a list of decimal digit characters. -/
def digitsVal (l : List Char) : ℕ :=
  l.foldl (fun acc c => acc * 10 + (c.toNat - 48)) 0

/-- Longest decimal-digit prefix, `none` (NaN) when there is none. -/
def parseDigitPrefix (l : List Char) : Option ℕ :=
  match l.takeWhile isDigitCh with
  | [] => none
  | ds => some (digitsVal ds)

/-- Sign handling of `parseInt` after whitespace trimming. -/
def parseSigned : List Char → Option ℤ
  | [] => none
  | c :: rest =>
    if c = '-' then (parseDigitPrefix rest).map (fun n => -(n : ℤ))
    else if c = '+' then (parseDigitPrefix rest).map (fun n => (n : ℤ))
    else (parseDigitPrefix (c :: rest)).map (fun n => (n : ℤ))

/-- JS `parseInt(s)` restricted to decimal inputs: skip leading whitespace, an
optional sign, then the longest digit prefix; NaN (`none`) when no digit
follows.  (The hexadecimal `0x` prefix of full `parseInt` is not modelled; no
time-string field in this code is hexadecimal.) -/
def jsParseInt (l : List Char) : Option ℤ :=
  parseSigned (l.dropWhile isSpaceCh)

/-! ## TimeCodec: `formatTime` and `parseTimeString` (Player.tsx lines 53–78) -/

/-- `formatTime` (Player.tsx lines 53–61).  `mins = Math.floor(t / 60)`,
`secs = Math.floor(t % 60)`, `ms = Math.round((t % 1) * 1000)`; rendered as
`` `${mins}:${pad2 secs}.${pad3 ms}` ``.  The `!isFinite(t)` guard of the
source cannot fire on ℚ, which has no NaN/Infinity, so it is not modelled. -/
def formatTime (t : ℚ) : List Char :=
  intChars (jfloor (t / 60)) ++ ':' ::
    (padStartZeros 2 (intChars (jfloor (jsRem t 60))) ++
      '.' :: padStartZeros 3 (intChars (jround (jsRem t 1 * 1000))))

/-- `parseTimeString` (Player.tsx lines 63–78).  Result `none` models a NaN
result (the millisecond field is parsed without the `|| 0` fallback that the
minute and second fields have, so a digit-free millisecond field propagates
NaN through the sum and through `roundToPrecision`).  `secsParts[1] ? … : 0`
treats both a missing index and an empty millisecond field as falsy, merged
here into the `getD 1 [] = []` test.  The `try/catch` of the source is dead —
neither `split` nor `parseInt` throws — so every path returns a JS number. -/
def parseTimeString (s : List Char) : Option ℚ :=
  let parts := jsSplit ':' s
  if parts.length ≠ 2 then some 0
  else
    let mins : ℤ := (jsParseInt parts.headI).getD 0
    let secsParts := jsSplit '.' (parts.getD 1 [])
    let secs : ℤ := (jsParseInt secsParts.headI).getD 0
    let msOpt : Option ℤ :=
      if secsParts.getD 1 [] = [] then some 0
      else jsParseInt (List.take 3 (padEndZeros 3 (secsParts.getD 1 [])))
    msOpt.map (fun ms => round3 ((mins : ℚ) * 60 + (secs : ℚ) + (ms : ℚ) / 1000))

/-! ## Player state: trim range, drag coordination, playback governor

State visible to the claims about the Player component: the trim bounds
`startPoint`/`endPoint` and `duration` (React state), the stored position
`currentTime` (React state, mirrored by `currentTimeRef`), the playing flag,
the drag session (`dragType`, mirrored by `isDraggingRef`), and the external
playback surface's position and paused flag (`videoRef.current.currentTime`
and pause state). -/

inductive DragTarget
  | rangeStart
  | rangeEnd
  | playhead
deriving DecidableEq

structure PlayerState where
  startPoint : ℚ
  endPoint : ℚ
  duration : ℚ
  currentTime : ℚ
  isPlaying : Bool
  surfacePos : ℚ
  surfacePaused : Bool
  dragType : Option DragTarget
deriving DecidableEq

/-- Drag handling (`handleMouseMove`, Player.tsx lines 281–304) applied to the
already-computed time value `newTime = roundToPrecision(percentage * duration, 3)`
(line 287).  The effect is mounted only while `dragType` is non-null; with no
open session the move is a no-op. -/
def handleMouseMove (newTime : ℚ) (s : PlayerState) : PlayerState :=
  match s.dragType with
  | none => s
  | some .rangeStart =>
    let clampedStart := max 0 (min newTime (s.endPoint - 1 / 10))
    { s with startPoint := clampedStart, surfacePos := clampedStart,
             currentTime := clampedStart }
  | some .rangeEnd =>
    let clampedEnd := max (s.startPoint + 1 / 10) (min newTime s.duration)
    { s with endPoint := clampedEnd }
  | some .playhead =>
    let clampedTime := max s.startPoint (min newTime s.endPoint)
    { s with surfacePos := clampedTime, currentTime := clampedTime }

/-- Pointer-x-to-time mapping of the drag path (lines 284–287): the move at
screen coordinate `x` over a track of width `w` updates with
`roundToPrecision((clamp x / w) * duration, 3)`. -/
def handleMouseMoveAt (x w : ℚ) (s : PlayerState) : PlayerState :=
  handleMouseMove (round3 (max 0 (min x w) / w * s.duration)) s

/-- Start text-field `onChange` (Player.tsx lines 838–847), given the already
parsed `newTime = parseTimeString(e.target.value)` on the non-NaN path:
`clampedTime = Math.min(newTime, endPoint - 0.1)` — there is no lower clamp —
then store and seek. -/
def startFieldChange (newTime : ℚ) (s : PlayerState) : PlayerState :=
  let clampedTime := min newTime (s.endPoint - 1 / 10)
  { s with startPoint := clampedTime, surfacePos := clampedTime,
           currentTime := clampedTime }

/-- End text-field `onChange` (Player.tsx lines 858–861):
`setEndPoint(Math.max(newTime, startPoint + 0.1))` — there is no upper clamp
to `duration`. -/
def endFieldChange (newTime : ℚ) (s : PlayerState) : PlayerState :=
  { s with endPoint := max newTime (s.startPoint + 1 / 10) }

/-- One tick of the 100ms range-enforcement interval
(`checkPlaybackBounds`, Player.tsx lines 220–239).  The interval effect is
mounted only while `isPlaying`; the callback itself returns early while a
drag session is open (`isDraggingRef.current`). -/
def checkPlaybackBounds (s : PlayerState) : PlayerState :=
  if ¬ s.isPlaying then s
  else if s.dragType.isSome then s
  else if s.surfacePos ≥ s.endPoint then
    { s with surfacePaused := true, surfacePos := s.startPoint,
             currentTime := s.startPoint, isPlaying := false }
  else s

/-- The `onEnded` handler of the video element (Player.tsx lines 559–566). -/
def onEnded (s : PlayerState) : PlayerState :=
  { s with isPlaying := false, surfacePos := s.startPoint,
           currentTime := s.startPoint }

/-- `handleStartDrag(type)` (Player.tsx lines 510–520): pause active playback,
then open the drag session. -/
def handleStartDrag (target : DragTarget) (s : PlayerState) : PlayerState :=
  let s := if s.isPlaying then
    { s with surfacePaused := true, isPlaying := false } else s
  { s with dragType := some target }

/-- `handleTimeUpdate` (Player.tsx lines 345–354): the surface's autonomous
position-changed event with reported position `pos`; ignored during a drag
session, and debounced below a 0.05 s delta. -/
def handleTimeUpdate (pos : ℚ) (s : PlayerState) : PlayerState :=
  if s.dragType.isSome then s
  else
    let newTime := round3 pos
    if |newTime - s.currentTime| < 1 / 20 then s
    else { s with currentTime := newTime }

/-- The trim-range invariant of the spec:
`0 ≤ startTime ≤ endTime − 0.1 ≤ duration`. -/
def TrimInv (s : PlayerState) : Prop :=
  0 ≤ s.startPoint ∧ s.startPoint ≤ s.endPoint - 1 / 10 ∧
    s.endPoint - 1 / 10 ≤ s.duration

instance (s : PlayerState) : Decidable (TrimInv s) := by
  unfold TrimInv; infer_instance

/-- A `setStart`/`setEnd` call of the trim model issued through the drag path:
the session targets `rangeStart` resp. `rangeEnd` and the move carries the
computed time value. -/
inductive TrimCall
  | setStart (t : ℚ)
  | setEnd (t : ℚ)

/-- Apply a drag-path trim call: open the matching drag session and process
the move. -/
def applyTrimCall (s : PlayerState) (c : TrimCall) : PlayerState :=
  match c with
  | .setStart t => handleMouseMove t { s with dragType := some .rangeStart }
  | .setEnd t => handleMouseMove t { s with dragType := some .rangeEnd }

/-! ## ClipFactory (`handleCreateClip`, Player.tsx lines 465–492) -/

structure VideoAsset where
  id : String
  name : List Char
deriving DecidableEq

inductive ClipError
  | noAssetSelected
  | invalidOrder
  | tooShort
deriving DecidableEq

/-- The emitted clip descriptor.  The opaque fresh `id` from
`crypto.randomUUID()` is not modelled. -/
structure Clip where
  sourceVideoId : String
  name : List Char
  startTime : ℚ
  endTime : ℚ
deriving DecidableEq

/-- `handleCreateClip`: validations in source order (no video selected, start
not before end, clip shorter than 0.1 s), then the descriptor with times
rounded to millisecond precision.  An error alert and early return is
modelled as `Except.error`; `onAddClip(newClip)` as `Except.ok`. -/
def handleCreateClip : Option VideoAsset → ℚ → ℚ → Except ClipError Clip
  | none, _, _ => .error .noAssetSelected
  | some v, startPoint, endPoint =>
    if startPoint ≥ endPoint then .error .invalidOrder
    else if endPoint - startPoint < 1 / 10 then .error .tooShort
    else .ok
      { sourceVideoId := v.id
        name := v.name ++ ' ' :: '(' :: (formatTime startPoint ++
          '-' :: formatTime endPoint) ++ [')']
        startTime := round3 startPoint
        endTime := round3 endPoint }

/-! ## JobPoller (`pollOptimizeTask` / `checkStatus`, Player.tsx VideoLibrary
part, lines 1069–1159, and the unmount cleanup effect, lines 932–943)

One job is modelled by `PollState`.  `live` is membership of the task in
`pollingTasksRef`; `timer` is the pending `setTimeout` delay in ms (`none` =
no pending timer); `optimizing` is membership of the video id in
`optimizingVideos`; `notices` collects the `alert(...)` calls, newest first;
`inFlight` records an issued `fetch` whose continuation has not yet run.

`checkStatus` is split at its `await fetch` suspension point: `checkEntry`
is the synchronous prefix (abort guard, timeout guard, issuing the request)
and `checkResume` is the continuation from the response or the rejection. -/

def POLL_INTERVAL : ℕ := 3000

def OPTIMIZE_TIMEOUT : ℕ := 5 * 60 * 1000

inductive Notice
  | optimizeDone
  | optimizeFailed
  | queryFailed
  | timedOut
deriving DecidableEq

structure PollState where
  live : Bool
  aborted : Bool
  retryCount : ℕ
  timer : Option ℕ
  optimizing : Bool
  inFlight : Bool
  notices : List Notice
deriving DecidableEq

/-- The state of a job freshly registered by `pollOptimizeTask` (line 1073:
`{ timeoutId: 0, aborted: false }`, no `retryCount` field yet, read back as
`0` through `|| 0`) whose video id was just added to `optimizingVideos`. -/
def freshJob : PollState :=
  { live := true, aborted := false, retryCount := 0, timer := none,
    optimizing := true, inFlight := false, notices := [] }

/-- `cleanup` (lines 1075–1087): cancel the tracked pending timer (only a
timer recorded in the registry entry can be cancelled), drop the task from
the registry, clear the optimizing marker. -/
def pollCleanup (s : PollState) : PollState :=
  { s with timer := if s.live then none else s.timer,
           live := false, optimizing := false }

/-- Statuses carried by a successful response: the two terminal ones and
`pending`, standing for any non-terminal status string. -/
inductive TaskStatus
  | completed
  | failed
  | pending
deriving DecidableEq

inductive FetchResult
  | ok (status : TaskStatus)
  | fail
deriving DecidableEq

/-- Synchronous prefix of `checkStatus` (lines 1089–1108) running at
`elapsed` ms after `startTime`: the fired/initial timer is consumed; a
missing or aborted task tears down silently; past the 5-minute ceiling a
timeout alert is raised and the job torn down; otherwise the status request
is issued. -/
def checkEntry (elapsed : ℕ) (s : PollState) : PollState :=
  let s := { s with timer := none }
  if ¬ s.live ∨ s.aborted then pollCleanup s
  else if elapsed > OPTIMIZE_TIMEOUT then
    pollCleanup { s with notices := .timedOut :: s.notices }
  else { s with inFlight := true }

/-- Continuation of `checkStatus` from the resolved request (lines
1110–1154).  Note: the continuation does not re-check the `aborted` flag.
On a non-terminal status a new timer is always created
(`window.setTimeout`, line 1128) but is recorded in the registry entry only
when the task is still live; the model keeps the leaked timer in `timer`
either way.  On a rejection, the retry count is read from the registry
entry (`|| 0` when the task or the field is absent); below 3 the count is
bumped and a retry scheduled at twice the poll interval only if the entry
still exists; at 3 or more a generic failure alert is raised and the job
torn down. -/
def checkResume (r : FetchResult) (s : PollState) : PollState :=
  let s := { s with inFlight := false }
  match r with
  | .ok .completed => pollCleanup { s with notices := .optimizeDone :: s.notices }
  | .ok .failed => pollCleanup { s with notices := .optimizeFailed :: s.notices }
  | .ok .pending => { s with timer := some POLL_INTERVAL }
  | .fail =>
    let rc := if s.live then s.retryCount else 0
    if rc < 3 then
      if s.live then
        { s with retryCount := rc + 1, timer := some (2 * POLL_INTERVAL) }
      else s
    else pollCleanup { s with notices := .queryFailed :: s.notices }

/-- One full poll round at `elapsed` ms whose request resolves to `r`,
assuming the entry guards pass (the composition is only meaningful when
`checkEntry` actually issued the request). -/
def pollRound (elapsed : ℕ) (r : FetchResult) (s : PollState) : PollState :=
  checkResume r (checkEntry elapsed s)

/-- The per-job effect of the unmount cleanup (lines 932–943): every task in
the registry gets `aborted = true`, its tracked timer cancelled, and the
registry cleared.  Jobs not in the registry are untouched; neither
`optimizingVideos` nor any notification is touched. -/
def abortJob (s : PollState) : PollState :=
  if s.live then { s with aborted := true, timer := none, live := false }
  else s

/-! ## LazyResourceLoader / VideoLibrary registries

`LibState` carries the registries the library claims are about: the active
asset list (`videos` prop), the observed-card registration keys
(`videoCardRefs`), the requested/in-flight markers (`requestedThumbnails`),
the url-keyed thumbnail cache of the thumbnail module (entries removable via
`clearThumbnailForVideo`), and the id-keyed `thumbnails` React state. -/

structure LibAsset where
  id : String
  url : String
deriving DecidableEq

structure LibState where
  videos : List LibAsset
  cardRefs : List String
  requested : List String
  urlCache : List String
  thumbnails : List String
deriving DecidableEq

/-- Body of the stale-entry cleanup effect (lines 1052–1066) for one
registered card id: ids still present in `videos` are kept; otherwise the
card registration and the requested marker are deleted, and the thumbnail
cache is cleared only for the asset found by `videos.find(v => v.id === id)`
— a lookup in the *new* list, which cannot contain a removed id. -/
def staleStep (videos : List LibAsset) (s : LibState) (id : String) : LibState :=
  if videos.any (fun v => v.id = id) then s
  else
    let s := { s with cardRefs := s.cardRefs.erase id,
                      requested := s.requested.erase id }
    match videos.find? (fun v => v.id = id) with
    | some v => { s with urlCache := s.urlCache.erase v.url }
    | none => s

/-- The stale-entry cleanup effect: iterate over the registered card ids. -/
def staleCleanup (s : LibState) : LibState :=
  s.cardRefs.foldl (staleStep s.videos) s

/-- The confirmed-delete path of `handleDelete` (lines 1254–1269), after the
HLS-path, optimizing and `window.confirm` guards have passed:
`clearThumbnailForVideo(video.url)`, `onDelete(video)` (the parent removes
the asset from the active set), card-ref and requested-marker deletion, and
the `thumbnails` state entry deletion.  (The guarded rejections perform no
removal and are not removal paths.) -/
def handleDelete (v : LibAsset) (s : LibState) : LibState :=
  { videos := s.videos.filter (fun w => w.id ≠ v.id)
    cardRefs := s.cardRefs.erase v.id
    requested := s.requested.erase v.id
    urlCache := s.urlCache.erase v.url
    thumbnails := s.thumbnails.erase v.id }

/-! ## Helper lemmas: floors -/

theorem jfloor_eq (q : ℚ) : jfloor q = ⌊q⌋ := by
  have h1 : Rat.floor q = q.num / q.den := Rat.floor_def' q
  have h2 : ⌊q⌋ = q.num / q.den := Rat.floor_def
  rw [jfloor, h1, h2]

theorem jceil_eq (q : ℚ) : jceil q = ⌈q⌉ := by
  rw [jceil, show Rat.floor (-q) = ⌊-q⌋ from jfloor_eq (-q), Int.floor_neg,
    neg_neg]

theorem jfloor_eq_of (q : ℚ) (n : ℤ) (h1 : (n : ℚ) ≤ q) (h2 : q < n + 1) :
    jfloor q = n := by
  rw [jfloor_eq]
  exact Int.floor_eq_iff.mpr ⟨h1, by exact_mod_cast h2⟩

theorem jround_intCast (n : ℤ) : jround (n : ℚ) = n := by
  rw [jround, jfloor_eq, add_comm, Int.floor_add_int]
  norm_num

/-- `a % b` in JS agrees with `a - b⌊a/b⌋` when the quotient is nonnegative. -/
theorem jsRem_of_nonneg (a b : ℚ) (h : 0 ≤ a / b) :
    jsRem a b = a - b * ⌊a / b⌋ := by
  rw [jsRem, if_neg (by exact not_lt.mpr h), jfloor_eq]

/-! ## Helper lemmas: decimal digit strings -/

theorem digitChar_toNat (d : ℕ) (h : d < 10) : (digitChar d).toNat = 48 + d := by
  interval_cases d <;> rfl

theorem isDigitCh_digitChar (d : ℕ) (h : d < 10) :
    isDigitCh (digitChar d) = true := by
  simp only [isDigitCh, digitChar_toNat d h, Bool.and_eq_true, decide_eq_true_eq]
  omega

theorem isDigitCh_toNat {c : Char} (h : isDigitCh c = true) :
    48 ≤ c.toNat ∧ c.toNat ≤ 57 := by
  simpa only [isDigitCh, Bool.and_eq_true, decide_eq_true_eq] using h

theorem not_isSpaceCh_of_digit {c : Char} (h : isDigitCh c = true) :
    isSpaceCh c = false := by
  obtain ⟨h1, h2⟩ := isDigitCh_toNat h
  simp only [isSpaceCh, Bool.or_eq_false_iff, decide_eq_false_iff_not]
  omega

theorem ne_of_digit_toNat {c : Char} (h : isDigitCh c = true) (d : Char)
    (hd : d.toNat < 48 ∨ 57 < d.toNat) : c ≠ d := by
  obtain ⟨h1, h2⟩ := isDigitCh_toNat h
  intro he
  subst he
  omega

theorem digitsVal_from (l : List Char) (acc : ℕ) :
    l.foldl (fun acc c => acc * 10 + (c.toNat - 48)) acc =
      acc * 10 ^ l.length + digitsVal l := by
  induction l generalizing acc with
  | nil => simp [digitsVal]
  | cons c cs ih =>
    rw [List.foldl_cons, ih (acc * 10 + (c.toNat - 48))]
    have h2 : digitsVal (c :: cs) = (c.toNat - 48) * 10 ^ cs.length + digitsVal cs := by
      rw [digitsVal, List.foldl_cons, ih (0 * 10 + (c.toNat - 48))]
      ring
    rw [h2, List.length_cons]
    ring

theorem digitsVal_cons (c : Char) (l : List Char) :
    digitsVal (c :: l) = (c.toNat - 48) * 10 ^ l.length + digitsVal l := by
  rw [digitsVal, List.foldl_cons, digitsVal_from]
  simp [digitsVal]

theorem digitsVal_append_single (l : List Char) (c : Char) :
    digitsVal (l ++ [c]) = digitsVal l * 10 + (c.toNat - 48) := by
  rw [digitsVal, List.foldl_append, digitsVal_from]
  simp [digitsVal]

theorem digitsVal_zero_cons (l : List Char) :
    digitsVal ('0' :: l) = digitsVal l := by
  rw [digitsVal_cons, show ('0').toNat = 48 from rfl]
  norm_num

theorem digitsVal_replicate_zero (m : ℕ) (l : List Char) :
    digitsVal (List.replicate m '0' ++ l) = digitsVal l := by
  induction m with
  | zero => simp
  | succ k ih => simpa [List.replicate_succ, digitsVal_zero_cons] using ih

/-- Core property bundle of `natDigitsAux`: given enough fuel the digit
expansion is nonempty, consists of digits, and evaluates back to `n`. -/
theorem natDigitsAux_spec :
    ∀ fuel : ℕ, ∀ n : ℕ, n < fuel →
      natDigitsAux fuel n ≠ [] ∧
      (∀ c ∈ natDigitsAux fuel n, isDigitCh c = true) ∧
      digitsVal (natDigitsAux fuel n) = n := by
  intro fuel
  induction fuel with
  | zero => omega
  | succ f ih =>
    intro n hn
    rw [natDigitsAux]
    by_cases h10 : n < 10
    · rw [if_pos h10]
      refine ⟨by simp, ?_, ?_⟩
      · intro c hc
        rw [List.mem_singleton] at hc
        subst hc
        exact isDigitCh_digitChar n h10
      · rw [digitsVal_cons]
        simp [digitsVal, digitChar_toNat n h10]
    · rw [if_neg h10]
      have hdivlt : n / 10 < n := Nat.div_lt_self (by omega) (by omega)
      have hrec := ih (n / 10) (by omega)
      refine ⟨by simp [hrec.1], ?_, ?_⟩
      · intro c hc
        rcases List.mem_append.mp hc with h | h
        · exact hrec.2.1 c h
        · rw [List.mem_singleton] at h
          subst h
          exact isDigitCh_digitChar _ (Nat.mod_lt _ (by omega))
      · rw [digitsVal_append_single, hrec.2.2,
          digitChar_toNat _ (Nat.mod_lt _ (by omega))]
        omega

theorem natDigits_ne_nil (n : ℕ) : natDigits n ≠ [] :=
  (natDigitsAux_spec (n + 1) n (Nat.lt_succ_self n)).1

theorem natDigits_digits (n : ℕ) : ∀ c ∈ natDigits n, isDigitCh c = true :=
  (natDigitsAux_spec (n + 1) n (Nat.lt_succ_self n)).2.1

theorem digitsVal_natDigits (n : ℕ) : digitsVal (natDigits n) = n :=
  (natDigitsAux_spec (n + 1) n (Nat.lt_succ_self n)).2.2

/-- Digit-count bound: `n < 10 ^ k` with `k ≥ 1` gives at most `k` digits. -/
theorem natDigitsAux_length :
    ∀ fuel : ℕ, ∀ n k : ℕ, n < fuel → n < 10 ^ k → 1 ≤ k →
      (natDigitsAux fuel n).length ≤ k := by
  intro fuel
  induction fuel with
  | zero => omega
  | succ f ih =>
    intro n k hn hk hk1
    rw [natDigitsAux]
    by_cases h10 : n < 10
    · rw [if_pos h10]
      simpa using hk1
    · rw [if_neg h10]
      have hdivlt : n / 10 < n := Nat.div_lt_self (by omega) (by omega)
      have hk2 : 2 ≤ k := by
        rcases Nat.lt_or_ge k 2 with h | h
        · interval_cases k
          rw [pow_one] at hk
          omega
        · exact h
      have hpow : 10 ^ k = 10 ^ (k - 1) * 10 := by
        rw [← pow_succ]
        congr 1
        omega
      have hdivk : n / 10 < 10 ^ (k - 1) :=
        (Nat.div_lt_iff_lt_mul (by omega)).mpr (by omega)
      have hrec := ih (n / 10) (k - 1) (by omega) hdivk (by omega)
      rw [List.length_append, List.length_singleton]
      omega

theorem natDigits_length_le (n k : ℕ) (hk : n < 10 ^ k) (hk1 : 1 ≤ k) :
    (natDigits n).length ≤ k :=
  natDigitsAux_length (n + 1) n k (Nat.lt_succ_self n) hk hk1

/-! ## Helper lemmas: splitting and parsing -/

theorem jsSplit_no_sep (sep : Char) (a : List Char) (ha : ∀ c ∈ a, c ≠ sep) :
    jsSplit sep a = [a] := by
  induction a with
  | nil => rfl
  | cons x xs ih =>
    have hx : x ≠ sep := ha x (List.mem_cons_self x xs)
    have hrec : jsSplit sep xs = [xs] :=
      ih (fun c hc => ha c (List.mem_cons_of_mem x hc))
    rw [jsSplit, if_neg hx, hrec]

theorem jsSplit_append (sep : Char) (a b : List Char) (ha : ∀ c ∈ a, c ≠ sep) :
    jsSplit sep (a ++ sep :: b) = a :: jsSplit sep b := by
  induction a with
  | nil => simp [jsSplit]
  | cons x xs ih =>
    have hx : x ≠ sep := ha x (List.mem_cons_self x xs)
    have hrec := ih (fun c hc => ha c (List.mem_cons_of_mem x hc))
    rw [List.cons_append, jsSplit, if_neg hx, hrec]

theorem takeWhile_all (p : Char → Bool) (l : List Char)
    (h : ∀ c ∈ l, p c = true) : l.takeWhile p = l := by
  induction l with
  | nil => rfl
  | cons x xs ih =>
    rw [List.takeWhile_cons_of_pos (h x (List.mem_cons_self x xs)),
      ih (fun c hc => h c (List.mem_cons_of_mem x hc))]

theorem jsParseInt_digits (l : List Char) (hne : l ≠ [])
    (hall : ∀ c ∈ l, isDigitCh c = true) :
    jsParseInt l = some ((digitsVal l : ℕ) : ℤ) := by
  match l, hne with
  | c :: cs, _ =>
    have hc : isDigitCh c = true := hall c (List.mem_cons_self c cs)
    have hs : isSpaceCh c = false := not_isSpaceCh_of_digit hc
    have hminus : c ≠ '-' := ne_of_digit_toNat hc '-' (by left; decide)
    have hplus : c ≠ '+' := ne_of_digit_toNat hc '+' (by left; decide)
    have htw : List.takeWhile isDigitCh (c :: cs) = c :: cs :=
      takeWhile_all _ _ hall
    rw [jsParseInt, List.dropWhile_cons_of_neg (by simp [hs]), parseSigned,
      if_neg hminus, if_neg hplus, parseDigitPrefix, htw]
    rfl

theorem mem_padStart_digits (k n : ℕ) :
    ∀ c ∈ padStartZeros k (natDigits n), isDigitCh c = true := by
  intro c hc
  rcases List.mem_append.mp hc with h | h
  · rw [List.eq_of_mem_replicate h]
    decide
  · exact natDigits_digits n c h

theorem padStart_ne_nil (k n : ℕ) : padStartZeros k (natDigits n) ≠ [] := by
  intro h
  rcases List.append_eq_nil.mp h with ⟨-, h2⟩
  exact natDigits_ne_nil n h2

theorem jsParseInt_padStart (k n : ℕ) :
    jsParseInt (padStartZeros k (natDigits n)) = some ((n : ℕ) : ℤ) := by
  rw [jsParseInt_digits _ (padStart_ne_nil k n) (mem_padStart_digits k n),
    padStartZeros, digitsVal_replicate_zero, digitsVal_natDigits]

theorem jsParseInt_natDigits (n : ℕ) :
    jsParseInt (natDigits n) = some ((n : ℕ) : ℤ) := by
  rw [jsParseInt_digits _ (natDigits_ne_nil n) (natDigits_digits n),
    digitsVal_natDigits]

theorem digit_ne_colon {c : Char} (h : isDigitCh c = true) : c ≠ ':' :=
  ne_of_digit_toNat h ':' (by right; decide)

theorem digit_ne_dot {c : Char} (h : isDigitCh c = true) : c ≠ '.' :=
  ne_of_digit_toNat h '.' (by left; decide)

theorem pad3_length (ms : ℕ) (hms : ms ≤ 999) :
    (padStartZeros 3 (natDigits ms)).length = 3 := by
  have hlen : (natDigits ms).length ≤ 3 :=
    natDigits_length_le ms 3 (by omega) (by omega)
  rw [padStartZeros, List.length_append, List.length_replicate]
  omega

/-- Evaluation of `parseTimeString` on a well-formed `M:SS.MMM` rendering
with at most three millisecond digits. -/
theorem parseTimeString_fields (mins secs ms : ℕ) (hms : ms ≤ 999) :
    parseTimeString (natDigits mins ++ ':' ::
        (padStartZeros 2 (natDigits secs) ++ '.' :: padStartZeros 3 (natDigits ms))) =
      some (round3 ((mins : ℚ) * 60 + (secs : ℚ) + (ms : ℚ) / 1000)) := by
  have hA : ∀ c ∈ natDigits mins, c ≠ ':' :=
    fun c hc => digit_ne_colon (natDigits_digits mins c hc)
  have hB : ∀ c ∈ padStartZeros 2 (natDigits secs) ++
      '.' :: padStartZeros 3 (natDigits ms), c ≠ ':' := by
    intro c hc
    rcases List.mem_append.mp hc with h | h
    · exact digit_ne_colon (mem_padStart_digits 2 secs c h)
    · rcases List.mem_cons.mp h with h | h
      · subst h; decide
      · exact digit_ne_colon (mem_padStart_digits 3 ms c h)
  have hsplit1 : jsSplit ':' (natDigits mins ++ ':' ::
      (padStartZeros 2 (natDigits secs) ++ '.' :: padStartZeros 3 (natDigits ms))) =
      [natDigits mins,
        padStartZeros 2 (natDigits secs) ++ '.' :: padStartZeros 3 (natDigits ms)] := by
    rw [jsSplit_append _ _ _ hA, jsSplit_no_sep _ _ hB]
  have hC : ∀ c ∈ padStartZeros 2 (natDigits secs), c ≠ '.' :=
    fun c hc => digit_ne_dot (mem_padStart_digits 2 secs c hc)
  have hsplit2 : jsSplit '.' (padStartZeros 2 (natDigits secs) ++
      '.' :: padStartZeros 3 (natDigits ms)) =
      [padStartZeros 2 (natDigits secs), padStartZeros 3 (natDigits ms)] := by
    rw [jsSplit_append _ _ _ hC, jsSplit_no_sep _ _
      (fun c hc => digit_ne_dot (mem_padStart_digits 3 ms c hc))]
  have hpe : List.take 3 (padEndZeros 3 (padStartZeros 3 (natDigits ms))) =
      padStartZeros 3 (natDigits ms) := by
    rw [padEndZeros, pad3_length ms hms]
    simp only [Nat.sub_self, List.replicate_zero, List.append_nil]
    exact List.take_of_length_le (le_of_eq (pad3_length ms hms))
  simp only [parseTimeString, hsplit1, hsplit2, List.length_cons, List.length_nil,
    List.headI, List.getD, List.get?, Option.getD_some,
    jsParseInt_padStart, jsParseInt_natDigits]
  rw [if_neg (by norm_num), if_neg (padStart_ne_nil 3 ms), hpe, jsParseInt_padStart]
  push_cast
  rfl

theorem intChars_nonneg (z : ℤ) (h : 0 ≤ z) : intChars z = natDigits z.toNat :=
  if_neg (not_lt.mpr h)

/-- Structural form of `formatTime` on nonnegative times: the three rendered
fields are the floor of the minute quotient, the second remainder, and the
rounded millisecond fraction. -/
theorem formatTime_nonneg (t : ℚ) (ht : 0 ≤ t) :
    formatTime t = natDigits (⌊t / 60⌋).toNat ++ ':' ::
      (padStartZeros 2 (natDigits (⌊t⌋ - 60 * ⌊t / 60⌋).toNat) ++
        '.' :: padStartZeros 3 (natDigits (jround ((t - ⌊t⌋) * 1000)).toNat)) := by
  have h60 : 0 ≤ t / 60 := div_nonneg ht (by norm_num)
  have hmins0 : 0 ≤ ⌊t / 60⌋ := Int.floor_nonneg.mpr h60
  have hrem60 : jsRem t 60 = t - ((60 * ⌊t / 60⌋ : ℤ) : ℚ) := by
    rw [jsRem_of_nonneg _ _ h60]
    push_cast
    ring
  have hfl60 : jfloor (jsRem t 60) = ⌊t⌋ - 60 * ⌊t / 60⌋ := by
    rw [hrem60, jfloor_eq, Int.floor_sub_int]
  have hsecs0 : 0 ≤ ⌊t⌋ - 60 * ⌊t / 60⌋ := by
    have h1 : ((60 * ⌊t / 60⌋ : ℤ) : ℚ) ≤ t := by
      push_cast
      have h2 : (⌊t / 60⌋ : ℚ) ≤ t / 60 := Int.floor_le _
      calc (60 : ℚ) * ⌊t / 60⌋ ≤ 60 * (t / 60) := by linarith
        _ = t := by ring
    have := Int.le_floor.mpr h1
    omega
  have hrem1 : jsRem t 1 = t - ((⌊t⌋ : ℤ) : ℚ) := by
    rw [jsRem_of_nonneg _ _ (by simpa using ht)]
    rw [div_one, one_mul]
  have hms0 : 0 ≤ jround ((t - ⌊t⌋) * 1000) := by
    rw [jround, jfloor_eq]
    have h1 : (0 : ℚ) ≤ t - ⌊t⌋ := sub_nonneg.mpr (Int.floor_le t)
    have : (0 : ℚ) ≤ (t - ⌊t⌋) * 1000 + 1 / 2 := by linarith
    exact Int.floor_nonneg.mpr this
  rw [formatTime, jfloor_eq, hfl60, hrem1,
    intChars_nonneg _ hmins0, intChars_nonneg _ hsecs0, intChars_nonneg _ hms0]

/-! ## Helper lemmas: closed-form evaluation of floors and rounding -/

theorem ifloor_eq_of (q : ℚ) (n : ℤ) (h1 : (n : ℚ) ≤ q) (h2 : q < n + 1) :
    ⌊q⌋ = n :=
  Int.floor_eq_iff.mpr ⟨h1, by exact_mod_cast h2⟩

theorem jround_eq_of (q : ℚ) (n : ℤ) (h1 : (n : ℚ) ≤ q + 1 / 2)
    (h2 : q + 1 / 2 < n + 1) : jround q = n :=
  jfloor_eq_of _ n h1 h2

theorem jround_nonneg (q : ℚ) (h : 0 ≤ q) : 0 ≤ jround q := by
  rw [jround, jfloor_eq]
  exact Int.floor_nonneg.mpr (by linarith)

theorem round3_thousandths (N : ℤ) : round3 ((N : ℚ) / 1000) = (N : ℚ) / 1000 := by
  rw [round3, div_mul_cancel₀ _ (by norm_num), jround_intCast]

theorem secs_nonneg (t : ℚ) : 0 ≤ ⌊t⌋ - 60 * ⌊t / 60⌋ := by
  have h1 : ((60 * ⌊t / 60⌋ : ℤ) : ℚ) ≤ t := by
    push_cast
    have h2 : (⌊t / 60⌋ : ℚ) ≤ t / 60 := Int.floor_le _
    calc (60 : ℚ) * ⌊t / 60⌋ ≤ 60 * (t / 60) := by linarith
      _ = t := by ring
  have := Int.le_floor.mpr h1
  omega

/-- C4 (amended): for every t in [0, 10⁶) whose rounded millisecond fraction
does not overflow into a fourth digit (`jround(frac(t)·1000) ≤ 999`, i.e.
frac(t) < 0.9995), `parseTimeString(formatTime(t))` equals t rounded to 3
decimal places. -/
theorem C4_roundtrip (t : ℚ) (h0 : 0 ≤ t) (_hlt : t < 10 ^ 6)
    (h2 : jround (jsRem t 1 * 1000) ≤ 999) :
    parseTimeString (formatTime t) = some (round3 t) := by
  have hrem1 : jsRem t 1 = t - ((⌊t⌋ : ℤ) : ℚ) := by
    rw [jsRem_of_nonneg _ _ (by simpa using h0), div_one, one_mul]
  have hM0 : 0 ≤ ⌊t / 60⌋ := Int.floor_nonneg.mpr (div_nonneg h0 (by norm_num))
  have hS0 : 0 ≤ ⌊t⌋ - 60 * ⌊t / 60⌋ := secs_nonneg t
  have hR0 : 0 ≤ jround ((t - ⌊t⌋) * 1000) := by
    apply jround_nonneg
    have : (⌊t⌋ : ℚ) ≤ t := Int.floor_le t
    nlinarith
  have hR999 : (jround ((t - ⌊t⌋) * 1000)).toNat ≤ 999 := by
    rw [hrem1] at h2
    omega
  rw [formatTime_nonneg t h0, parseTimeString_fields _ _ _ hR999]
  congr 1
  have harg : ((⌊t / 60⌋.toNat : ℚ) * 60 + ((⌊t⌋ - 60 * ⌊t / 60⌋).toNat : ℚ) +
      ((jround ((t - ⌊t⌋) * 1000)).toNat : ℚ) / 1000) =
      ((60000 * ⌊t / 60⌋ + 1000 * (⌊t⌋ - 60 * ⌊t / 60⌋) +
        jround ((t - ⌊t⌋) * 1000) : ℤ) : ℚ) / 1000 := by
    rw [show ((⌊t / 60⌋.toNat : ℚ)) = ((⌊t / 60⌋ : ℤ) : ℚ) by
        exact_mod_cast congrArg Int.cast (Int.toNat_of_nonneg hM0),
      show (((⌊t⌋ - 60 * ⌊t / 60⌋).toNat : ℚ)) = ((⌊t⌋ - 60 * ⌊t / 60⌋ : ℤ) : ℚ) by
        exact_mod_cast congrArg Int.cast (Int.toNat_of_nonneg hS0),
      show (((jround ((t - ⌊t⌋) * 1000)).toNat : ℚ)) =
          ((jround ((t - ⌊t⌋) * 1000) : ℤ) : ℚ) by
        exact_mod_cast congrArg Int.cast (Int.toNat_of_nonneg hR0)]
    push_cast
    ring
  rw [harg, round3_thousandths]
  have hjt : jround (t * 1000) = 60000 * ⌊t / 60⌋ + 1000 * (⌊t⌋ - 60 * ⌊t / 60⌋) +
      jround ((t - ⌊t⌋) * 1000) := by
    have hsplit : t * 1000 + 1 / 2 =
        ((t - ⌊t⌋) * 1000 + 1 / 2) + ((1000 * ⌊t⌋ : ℤ) : ℚ) := by
      push_cast
      ring
    rw [jround, jfloor_eq, hsplit, Int.floor_add_int, jround, jfloor_eq]
    ring
  rw [round3, hjt]

/-- `formatTime` at the half-millisecond point 0.9995 s: the millisecond field
rounds to 1000 and is rendered as the four-character field of `0:00.1000`. -/
theorem formatTime_overflow : formatTime (1999 / 2000 : ℚ) =
    ['0', ':', '0', '0', '.', '1', '0', '0', '0'] := by
  rw [formatTime_nonneg _ (by norm_num),
    show ⌊(1999 / 2000 : ℚ) / 60⌋ = 0 from ifloor_eq_of _ _ (by norm_num) (by norm_num),
    show ⌊(1999 / 2000 : ℚ)⌋ = 0 from ifloor_eq_of _ _ (by norm_num) (by norm_num)]
  simp only [Int.cast_zero, sub_zero, mul_zero]
  rw [show jround ((1999 / 2000 : ℚ) * 1000) = 1000 from
    jround_eq_of _ _ (by norm_num) (by norm_num)]
  rfl

/-- Parsing `0:00.1000` truncates the millisecond field to its first three
characters (`100`), yielding 0.1 s. -/
theorem parse_overflow : parseTimeString (['0', ':', '0', '0', '.', '1', '0', '0', '0']) =
    some (1 / 10 : ℚ) := by
  have hp : parseTimeString (['0', ':', '0', '0', '.', '1', '0', '0', '0']) =
      some (round3 (((0 : ℤ) : ℚ) * 60 + ((0 : ℤ) : ℚ) + ((100 : ℤ) : ℚ) / 1000)) := rfl
  rw [hp, show (((0 : ℤ) : ℚ) * 60 + ((0 : ℤ) : ℚ) + ((100 : ℤ) : ℚ) / 1000) = 1 / 10 by
      norm_num,
    round3, show jround ((1 / 10 : ℚ) * 1000) = 100 from
      jround_eq_of _ _ (by norm_num) (by norm_num)]
  norm_num

/-- `roundToPrecision(0.9995, 3) = 1`. -/
theorem round3_overflow : round3 (1999 / 2000 : ℚ) = 1 := by
  rw [round3, show jround ((1999 / 2000 : ℚ) * 1000) = 1000 from
    jround_eq_of _ _ (by norm_num) (by norm_num)]
  norm_num

/-! ## Claim theorems -/

/-- C1 (counterexample): a fresh job that suffers three consecutive transport
failures and then receives a successful non-terminal response is still polling
with the next check scheduled at the normal interval, but its retry counter is
3, not the 0 the claim requires. -/
theorem C1_counterexample :
    (pollRound 18000 (.ok .pending) (pollRound 12000 .fail
      (pollRound 6000 .fail (pollRound 0 .fail freshJob)))).retryCount = 3 ∧
    (pollRound 18000 (.ok .pending) (pollRound 12000 .fail
      (pollRound 6000 .fail (pollRound 0 .fail freshJob)))).live = true ∧
    (pollRound 18000 (.ok .pending) (pollRound 12000 .fail
      (pollRound 6000 .fail (pollRound 0 .fail freshJob)))).timer = some POLL_INTERVAL ∧
    (3 : ℕ) ≠ 0 := by decide

/-- C1 (amended): on a transport failure of a live job the retry counter is
incremented and, while previously below 3, a retry is scheduled after twice
the 3s interval with no other state change; at or above 3 the job is torn
down with the generic query-failure notice; a successful non-terminal
response keeps the job polling with a 3s reschedule but leaves the retry
counter unchanged (it is never reset). -/
theorem C1_retry_behavior (s : PollState) (hlive : s.live = true) :
    (s.retryCount < 3 → checkResume .fail s =
      { s with inFlight := false, retryCount := s.retryCount + 1,
               timer := some (2 * POLL_INTERVAL) }) ∧
    (3 ≤ s.retryCount → (checkResume .fail s).live = false ∧
      (checkResume .fail s).optimizing = false ∧
      (checkResume .fail s).timer = none ∧
      (checkResume .fail s).notices = .queryFailed :: s.notices) ∧
    (checkResume (.ok .pending) s).live = true ∧
    (checkResume (.ok .pending) s).timer = some POLL_INTERVAL ∧
    (checkResume (.ok .pending) s).retryCount = s.retryCount ∧
    (checkResume (.ok .pending) s).notices = s.notices := by
  refine ⟨fun h => ?_, fun h => ?_, ?_, ?_, ?_, ?_⟩
  · simp [checkResume, hlive, h]
  · simp [checkResume, pollCleanup, hlive, show ¬ s.retryCount < 3 by omega]
  · simp [checkResume, hlive]
  · simp [checkResume, hlive]
  · simp [checkResume, hlive]
  · simp [checkResume, hlive]

/-- C1 (witness): the first transport failure of a fresh job bumps the retry
counter to 1. -/
theorem C1_retry_witness : (checkResume .fail freshJob).retryCount = 1 := by
  have h := (C1_retry_behavior freshJob rfl).1 (by decide)
  rw [h]
  rfl

/-- A live job whose status request is currently awaiting its response. -/
def requestInFlightJob : PollState :=
  { live := true, aborted := false, retryCount := 0, timer := none,
    optimizing := true, inFlight := true, notices := [] }

/-- C2 (counterexample): aborting a job with a status request in flight sets
its aborted flag, yet when the in-flight request resolves with a terminal
status the continuation (which never re-checks the abort flag) still emits
the completion notification and clears the optimizing marker — observable
state is mutated after the abort. -/
theorem C2_counterexample :
    (abortJob requestInFlightJob).aborted = true ∧
    (abortJob requestInFlightJob).timer = none ∧
    (checkResume (.ok .completed) (abortJob requestInFlightJob)).notices =
      [Notice.optimizeDone] ∧
    (checkResume (.ok .completed) (abortJob requestInFlightJob)).optimizing = false ∧
    ([Notice.optimizeDone] ≠ ([] : List Notice)) := by decide

/-- C2 (amended): a forced abort synchronously sets every live job's aborted
flag, cancels its pending timer and removes it from the registry, and any
check that starts on an aborted or dead job exits at the guard: it issues no
status request (`inFlight` unchanged), raises no notification, and leaves no
timer.  (A request already in flight at abort time is not covered: its
continuation runs without re-checking the flag, as the counterexample
shows.) -/
theorem C2_abort_guard (s : PollState) (hlive : s.live = true) :
    (abortJob s).aborted = true ∧ (abortJob s).timer = none ∧
    (abortJob s).live = false ∧
    (∀ elapsed : ℕ, ∀ s2 : PollState, s2.aborted = true ∨ s2.live = false →
      (checkEntry elapsed s2).inFlight = s2.inFlight ∧
      (checkEntry elapsed s2).notices = s2.notices ∧
      (checkEntry elapsed s2).timer = none) := by
  refine ⟨by simp [abortJob, hlive], by simp [abortJob, hlive],
    by simp [abortJob, hlive], ?_⟩
  intro elapsed s2 h
  rcases h with h | h <;> simp [checkEntry, pollCleanup, h]

/-- A live job with a pending 3s timer and no request in flight. -/
def inFlightDemo : PollState :=
  { live := true, aborted := false, retryCount := 0, timer := some 3000,
    optimizing := true, inFlight := false, notices := [] }

/-- C2 (witness): aborting a live job with a pending timer sets its flag, and
a later check on the aborted job issues no request. -/
theorem C2_abort_witness :
    (abortJob inFlightDemo).aborted = true ∧
    (checkEntry 0 (abortJob inFlightDemo)).inFlight =
      (abortJob inFlightDemo).inFlight := by
  refine ⟨(C2_abort_guard inFlightDemo rfl).1, ?_⟩
  exact ((C2_abort_guard inFlightDemo rfl).2.2.2 0 (abortJob inFlightDemo)
    (Or.inl (C2_abort_guard inFlightDemo rfl).1)).1

/-- A library state whose card/requested/cache registries still hold asset
`a` (locator `u`) after the asset left the active set. -/
def libDemo : LibState :=
  { videos := [], cardRefs := ["a"], requested := ["a"],
    urlCache := ["u"], thumbnails := ["a"] }

/-- The same registries while asset `a` is still in the active set. -/
def libDemo2 : LibState :=
  { videos := [⟨"a", "u"⟩], cardRefs := ["a"], requested := ["a"],
    urlCache := ["u"], thumbnails := ["a"] }

/-- C5 (code bug, evaluation): when asset `a` is removed externally, the
stale-entry cleanup deletes its card registration and requested marker but —
because it looks the id up in the new asset list, which no longer contains
it — never clears the url-keyed thumbnail cache (nor the id-keyed thumbnail
state), so the triple is not purged together; the explicit delete path does
purge all of it. -/
theorem C5_purge_evaluation :
    (staleCleanup libDemo).cardRefs = [] ∧
    (staleCleanup libDemo).requested = [] ∧
    (staleCleanup libDemo).urlCache = ["u"] ∧
    (staleCleanup libDemo).thumbnails = ["a"] ∧
    (handleDelete ⟨"a", "u"⟩ libDemo2).videos = [] ∧
    (handleDelete ⟨"a", "u"⟩ libDemo2).cardRefs = [] ∧
    (handleDelete ⟨"a", "u"⟩ libDemo2).requested = [] ∧
    (handleDelete ⟨"a", "u"⟩ libDemo2).urlCache = [] ∧
    (handleDelete ⟨"a", "u"⟩ libDemo2).thumbnails = [] := by decide


/-- `roundToPrecision` moves a value by at most half a millisecond. -/
theorem round3_close (q : ℚ) : |round3 q - q| ≤ 1 / 2000 := by
  rw [round3, jround, jfloor_eq]
  have h1 : (⌊q * 1000 + 1 / 2⌋ : ℚ) ≤ q * 1000 + 1 / 2 := Int.floor_le _
  have h2 : q * 1000 + 1 / 2 < ⌊q * 1000 + 1 / 2⌋ + 1 := Int.lt_floor_add_one _
  rw [abs_le]
  constructor <;> [linarith; linarith]

/-- C6: `handleCreateClip` validates in source order — null asset first
(`NoAssetSelected`), then `startTime < endTime` (`InvalidOrder`), then the
0.1 s minimum length (`TooShort`); on every valid input it emits a
descriptor carrying the rounded bounds, whose length matches the requested
length to within a millisecond; on every invalid input it returns the error
and emits nothing. -/
theorem C6_createClip (v : VideoAsset) (s e : ℚ) :
    handleCreateClip none s e = .error .noAssetSelected ∧
    (s ≥ e → handleCreateClip (some v) s e = .error .invalidOrder) ∧
    (s < e → e - s < 1 / 10 → handleCreateClip (some v) s e = .error .tooShort) ∧
    (1 / 10 ≤ e - s → ∃ c, handleCreateClip (some v) s e = .ok c ∧
      c.sourceVideoId = v.id ∧ c.startTime = round3 s ∧ c.endTime = round3 e ∧
      |(c.endTime - c.startTime) - (e - s)| ≤ 1 / 1000) := by
  refine ⟨rfl, fun h => ?_, fun h1 h2 => ?_, fun h => ?_⟩
  · rw [handleCreateClip, if_pos h]
  · rw [handleCreateClip, if_neg (by exact not_le.mpr h1), if_pos h2]
  · have hlt : s < e := by linarith
    rw [handleCreateClip, if_neg (by exact not_le.mpr hlt),
      if_neg (by exact not_lt.mpr h)]
    refine ⟨_, rfl, rfl, rfl, rfl, ?_⟩
    have b1 := round3_close s
    have b2 := round3_close e
    rw [abs_le] at b1 b2 ⊢
    constructor <;> [linarith; linarith]

/-- C6 (witness): a 1-second clip of a concrete asset is created. -/
theorem C6_witness : ∃ c, handleCreateClip (some ⟨"vid", ['v']⟩) 0 1 = .ok c ∧
    c.sourceVideoId = "vid" ∧ c.startTime = round3 0 ∧ c.endTime = round3 1 ∧
    |(c.endTime - c.startTime) - ((1 : ℚ) - 0)| ≤ 1 / 1000 :=
  (C6_createClip ⟨"vid", ['v']⟩ 0 1).2.2.2 (by norm_num)

/-- C7: while playing with no drag session open, a range-enforcement tick
that samples a surface position at or past `endPoint` pauses the surface,
seeks it to `startPoint`, stores `startPoint`, and leaves the Playing state;
an `ended` notification likewise forces Idle and reseeks to `startPoint`. -/
theorem C7_playback_governor (s : PlayerState) (hp : s.isPlaying = true)
    (hd : s.dragType = none) (hpos : s.endPoint ≤ s.surfacePos) :
    (checkPlaybackBounds s).isPlaying = false ∧
    (checkPlaybackBounds s).surfacePaused = true ∧
    (checkPlaybackBounds s).surfacePos = s.startPoint ∧
    (checkPlaybackBounds s).currentTime = s.startPoint ∧
    (∀ s2 : PlayerState, (onEnded s2).isPlaying = false ∧
      (onEnded s2).surfacePos = s2.startPoint ∧
      (onEnded s2).currentTime = s2.startPoint) := by
  have hcb : checkPlaybackBounds s =
      { s with surfacePaused := true, surfacePos := s.startPoint,
               currentTime := s.startPoint, isPlaying := false } := by
    unfold checkPlaybackBounds
    rw [if_neg (by simp [hp]), if_neg (by simp [hd]), if_pos hpos]
  refine ⟨by rw [hcb], by rw [hcb], by rw [hcb], by rw [hcb],
    fun s2 => ⟨rfl, rfl, rfl⟩⟩

/-- A playing state whose surface position has reached the out-point. -/
def playingAtEnd : PlayerState :=
  { startPoint := 0, endPoint := 1, duration := 1, currentTime := 1,
    isPlaying := true, surfacePos := 1, surfacePaused := false, dragType := none }

/-- C7 (witness): the governor pauses and reseeks at the out-point. -/
theorem C7_witness :
    (checkPlaybackBounds playingAtEnd).isPlaying = false ∧
    (checkPlaybackBounds playingAtEnd).surfacePos = playingAtEnd.startPoint :=
  ⟨(C7_playback_governor playingAtEnd rfl rfl (le_refl 1)).1,
    (C7_playback_governor playingAtEnd rfl rfl (le_refl 1)).2.2.1⟩

/-- The spec scenario state: asset duration 120.5 s, `endPoint` previously
dragged to 118.0, a `rangeStart` drag session open. -/
def dragEndScenario : PlayerState :=
  { startPoint := 0, endPoint := 118, duration := 241 / 2, currentTime := 0,
    isPlaying := false, surfacePos := 0, surfacePaused := true,
    dragType := some .rangeStart }

/-- C8: a `rangeStart` drag stores the clamp of the input to
`[0, endPoint − 0.1]` and a `rangeEnd` drag stores the clamp to
`[startPoint + 0.1, duration]` (clamp as `max lo (min t hi)`, with the
interval-characterisation when the bounds are ordered); in the spec scenario
(duration 120.5, end at 118.0) a `rangeStart` drag to raw 119.0 stores
117.9. -/
theorem C8_setStart_setEnd (t : ℚ) (s : PlayerState) :
    (s.dragType = some .rangeStart →
      (handleMouseMove t s).startPoint = max 0 (min t (s.endPoint - 1 / 10)) ∧
      (0 ≤ s.endPoint - 1 / 10 →
        0 ≤ (handleMouseMove t s).startPoint ∧
        (handleMouseMove t s).startPoint ≤ s.endPoint - 1 / 10 ∧
        (0 ≤ t → t ≤ s.endPoint - 1 / 10 → (handleMouseMove t s).startPoint = t))) ∧
    (s.dragType = some .rangeEnd →
      (handleMouseMove t s).endPoint = max (s.startPoint + 1 / 10) (min t s.duration) ∧
      (s.startPoint + 1 / 10 ≤ s.duration →
        s.startPoint + 1 / 10 ≤ (handleMouseMove t s).endPoint ∧
        (handleMouseMove t s).endPoint ≤ s.duration ∧
        (s.startPoint + 1 / 10 ≤ t → t ≤ s.duration →
          (handleMouseMove t s).endPoint = t))) ∧
    (handleMouseMove 119 dragEndScenario).startPoint = 1179 / 10 := by
  refine ⟨fun hd => ⟨?_, fun hb => ⟨?_, ?_, fun h0 h1 => ?_⟩⟩,
    fun hd => ⟨?_, fun hb => ⟨?_, ?_, fun h0 h1 => ?_⟩⟩, ?_⟩
  · simp [handleMouseMove, hd]
  · simp only [handleMouseMove, hd]
    exact le_max_left 0 _
  · simp only [handleMouseMove, hd]
    exact max_le hb (min_le_right t _)
  · simp only [handleMouseMove, hd]
    rw [min_eq_left h1, max_eq_right h0]
  · simp [handleMouseMove, hd]
  · simp only [handleMouseMove, hd]
    exact le_max_left _ _
  · simp only [handleMouseMove, hd]
    exact max_le hb (min_le_right t _)
  · simp only [handleMouseMove, hd]
    rw [min_eq_left h1, max_eq_right h0]
  · simp only [handleMouseMove, dragEndScenario]
    rw [show min (119 : ℚ) (118 - 1 / 10) = 1179 / 10 by
        rw [min_eq_right (by norm_num)]; norm_num,
      max_eq_right (by norm_num)]

/-- C8 (witness): the `rangeStart` clamp formula at a concrete input. -/
theorem C8_witness :
    (handleMouseMove 5 dragEndScenario).startPoint =
      max 0 (min 5 (dragEndScenario.endPoint - 1 / 10)) :=
  ((C8_setStart_setEnd 5 dragEndScenario).1 rfl).1

/-- C9: starting any drag on a playing state pauses the surface and clears
the playing flag before the session opens (drag moves are processed only
with the session open), and while any session is open an autonomous
position-changed event leaves the state — in particular the stored current
position — unchanged. -/
theorem C9_drag_priority (target : DragTarget) (p : ℚ) (s s2 : PlayerState)
    (hp : s.isPlaying = true) (hd : s2.dragType.isSome = true) :
    (handleStartDrag target s).isPlaying = false ∧
    (handleStartDrag target s).surfacePaused = true ∧
    (handleStartDrag target s).dragType = some target ∧
    handleTimeUpdate p s2 = s2 ∧
    (handleTimeUpdate p s2).currentTime = s2.currentTime := by
  refine ⟨?_, ?_, ?_, ?_, ?_⟩ <;>
    simp [handleStartDrag, handleTimeUpdate, hp, hd]

/-- A playing state inside the trim range. -/
def playingMidRange : PlayerState :=
  { startPoint := 0, endPoint := 1, duration := 1, currentTime := 0,
    isPlaying := true, surfacePos := 0, surfacePaused := false,
    dragType := none }

/-- C9 (witness): a playhead drag pauses playback; a position event during a
drag session is ignored. -/
theorem C9_witness :
    (handleStartDrag .playhead playingMidRange).isPlaying = false ∧
    handleTimeUpdate 7 dragEndScenario = dragEndScenario :=
  ⟨(C9_drag_priority .playhead 7 playingMidRange dragEndScenario rfl rfl).1,
    (C9_drag_priority .playhead 7 playingMidRange dragEndScenario rfl rfl).2.2.2.1⟩


/-- A 120.5 s asset with the full range selected: the trim invariant holds. -/
def trimDemoState : PlayerState :=
  { startPoint := 0, endPoint := 241 / 2, duration := 241 / 2, currentTime := 0,
    isPlaying := false, surfacePos := 0, surfacePaused := true, dragType := none }

/-- C3 (counterexample): from a state satisfying the invariant (duration
120.5 s, full range selected), an End text-field edit of `999:00.000` —
which `parseTimeString` reads as 59940 s — stores an `endPoint` with no
upper clamp to `duration`, violating `endTime − 0.1 ≤ duration`. -/
theorem C3_counterexample :
    TrimInv trimDemoState ∧
    (1 / 10 : ℚ) ≤ trimDemoState.duration ∧
    parseTimeString ("999:00.000".toList) = some 59940 ∧
    ¬ TrimInv (endFieldChange 59940 trimDemoState) := by
  refine ⟨?_, ?_, ?_, ?_⟩
  · refine ⟨le_refl 0, ?_, ?_⟩ <;> norm_num [trimDemoState]
  · norm_num [trimDemoState]
  · have hp : parseTimeString ("999:00.000".toList) =
        some (round3 (((999 : ℤ) : ℚ) * 60 + ((0 : ℤ) : ℚ) + ((0 : ℤ) : ℚ) / 1000)) := rfl
    rw [hp, show (((999 : ℤ) : ℚ) * 60 + ((0 : ℤ) : ℚ) + ((0 : ℤ) : ℚ) / 1000) =
        59940 by norm_num,
      round3, show jround ((59940 : ℚ) * 1000) = 59940000 from
        jround_eq_of _ _ (by norm_num) (by norm_num)]
    norm_num
  · intro hinv
    have h2 := hinv.2.2
    simp only [endFieldChange, trimDemoState] at h2
    rw [show max (59940 : ℚ) (0 + 1 / 10) = 59940 from max_eq_left (by norm_num)] at h2
    norm_num at h2

/-- One drag-path `setStart`/`setEnd` call preserves the trim invariant. -/
theorem trim_step_preserves (s : PlayerState) (c : TrimCall) (h : TrimInv s) :
    TrimInv (applyTrimCall s c) := by
  obtain ⟨h0, h1, h2⟩ := h
  cases c with
  | setStart t =>
    simp only [applyTrimCall, handleMouseMove, TrimInv]
    exact ⟨le_max_left 0 _,
      max_le (le_trans h0 h1) (min_le_right t _), h2⟩
  | setEnd t =>
    simp only [applyTrimCall, handleMouseMove, TrimInv]
    refine ⟨h0, ?_, ?_⟩
    · have := le_max_left (s.startPoint + 1 / 10) (min t s.duration)
      linarith
    · have hmax : max (s.startPoint + 1 / 10) (min t s.duration) ≤
          s.duration + 1 / 10 :=
        max_le (by linarith) (le_trans (min_le_right t _) (by linarith))
      linarith

/-- C3 (amended): for every sequence of `setStart`/`setEnd` calls issued
through the drag path, the invariant `0 ≤ startTime ≤ endTime − 0.1 ≤
duration` holds after every call (given it held initially); the text-field
paths clamp only on one side — the Start edit has no lower clamp to 0 and
the End edit no upper clamp to `duration` — so the invariant can be
violated there, as the counterexample shows. -/
theorem C3_drag_invariant (calls : List TrimCall) (s : PlayerState)
    (h : TrimInv s) : TrimInv (calls.foldl applyTrimCall s) := by
  induction calls generalizing s with
  | nil => exact h
  | cons c cs ih => exact ih _ (trim_step_preserves s c h)

/-- A 1 s asset with the full range selected. -/
def idleTrimState : PlayerState :=
  { startPoint := 0, endPoint := 1, duration := 1, currentTime := 0,
    isPlaying := false, surfacePos := 0, surfacePaused := true, dragType := none }

/-- C3 (witness): a concrete drag sequence keeps the invariant. -/
theorem C3_drag_witness :
    TrimInv ([TrimCall.setStart 5, TrimCall.setEnd 300].foldl
      applyTrimCall idleTrimState) :=
  C3_drag_invariant [TrimCall.setStart 5, TrimCall.setEnd 300] idleTrimState
    ⟨le_refl 0, by norm_num [idleTrimState], by norm_num [idleTrimState]⟩

/-- C4 (counterexample): t = 0.9995 s lies in [0, 10⁶), yet the round-trip
returns 0.1 s while t rounded to 3 decimals is 1 s — `formatTime` renders a
four-digit `1000` millisecond field and `parseTimeString` keeps only its
first three characters. -/
theorem C4_counterexample :
    (0 : ℚ) ≤ 1999 / 2000 ∧ (1999 / 2000 : ℚ) < 10 ^ 6 ∧
    parseTimeString (formatTime (1999 / 2000)) = some (1 / 10) ∧
    round3 (1999 / 2000) = 1 ∧ ((1 / 10 : ℚ)) ≠ 1 :=
  ⟨by norm_num, by norm_num,
    by rw [formatTime_overflow]; exact parse_overflow,
    round3_overflow, by norm_num⟩

/-- C4 (witness): the round-trip at t = 123.456 s. -/
theorem C4_roundtrip_witness :
    parseTimeString (formatTime (123456 / 1000 : ℚ)) =
      some (round3 (123456 / 1000)) := by
  apply C4_roundtrip
  · norm_num
  · norm_num
  · rw [jsRem_of_nonneg _ _ (by norm_num), div_one, one_mul,
      show ⌊(123456 / 1000 : ℚ)⌋ = 123 from ifloor_eq_of _ _ (by norm_num) (by norm_num)]
    rw [show ((123456 / 1000 : ℚ) - ((123 : ℤ) : ℚ)) * 1000 = 456 by push_cast; norm_num]
    rw [show jround (456 : ℚ) = 456 from jround_eq_of _ _ (by norm_num) (by norm_num)]
    norm_num


/-- C10 (counterexample): on `1:2.x` the wholly non-numeric millisecond
field is parsed without the `|| 0` fallback, so the result is NaN (`none`),
not the 62 s that treating the field as 0 would give. -/
theorem C10_counterexample :
    parseTimeString ("1:2.x".toList) = none ∧
    (none : Option ℚ) ≠ some 62 := ⟨rfl, by simp⟩

/-- C10 (amended): `parseTimeString` never throws (its `try/catch` is dead
and every path yields a JS number, possibly NaN); a string that does not
split on `:` into exactly two parts returns 0; a non-numeric minute or
second field is treated as 0; but a nonempty millisecond field whose first
three padded characters start with no digit makes the result NaN. -/
theorem C10_parse_behavior :
    (∀ s : List Char, (jsSplit ':' s).length ≠ 2 → parseTimeString s = some 0) ∧
    (∀ a b : List Char, (∀ c ∈ a, c ≠ ':') → jsParseInt a = none →
      parseTimeString (a ++ ':' :: b) = parseTimeString ('0' :: ':' :: b)) ∧
    (∀ p0 sf msf : List Char, (∀ c ∈ p0, c ≠ ':') →
      (∀ c ∈ sf ++ '.' :: msf, c ≠ ':') → (∀ c ∈ sf, c ≠ '.') →
      jsParseInt sf = none →
      parseTimeString (p0 ++ ':' :: (sf ++ '.' :: msf)) =
        parseTimeString (p0 ++ ':' :: ('0' :: '.' :: msf))) ∧
    (∀ p0 sf msf : List Char, (∀ c ∈ p0, c ≠ ':') →
      (∀ c ∈ sf ++ '.' :: msf, c ≠ ':') → (∀ c ∈ sf, c ≠ '.') →
      (∀ c ∈ msf, c ≠ '.') → msf ≠ [] →
      jsParseInt (List.take 3 (padEndZeros 3 msf)) = none →
      parseTimeString (p0 ++ ':' :: (sf ++ '.' :: msf)) = none) := by
  refine ⟨?_, ?_, ?_, ?_⟩
  · intro s h
    simp only [parseTimeString]
    rw [if_pos h]
  · intro a b ha hnone
    have hsplitL : jsSplit ':' (a ++ ':' :: b) = a :: jsSplit ':' b :=
      jsSplit_append ':' a b ha
    have hsplitR : jsSplit ':' ('0' :: ':' :: b) = ['0'] :: jsSplit ':' b :=
      jsSplit_append ':' ['0'] b (by intro c hc; rw [List.mem_singleton] at hc; subst hc; decide)
    rcases h3 : jsSplit ':' b with _ | ⟨x, tl⟩
    · simp only [parseTimeString, hsplitL, hsplitR, h3, List.length_cons,
        List.length_nil]
      norm_num
    · rcases tl with _ | ⟨y, tl2⟩
      · simp only [parseTimeString, hsplitL, hsplitR, h3, List.length_cons,
          List.length_nil, List.headI, List.getD, List.get?, hnone, Option.getD_none,
          show jsParseInt ['0'] = some 0 from rfl, Option.getD_some]
      · simp only [parseTimeString, hsplitL, hsplitR, h3, List.length_cons,
          List.length_nil]
        rw [if_pos (by omega), if_pos (by omega)]
  · intro p0 sf msf h0 h1 h2 hnone
    have hsplitL : jsSplit ':' (p0 ++ ':' :: (sf ++ '.' :: msf)) =
        p0 :: jsSplit ':' (sf ++ '.' :: msf) := jsSplit_append ':' p0 _ h0
    have hone : jsSplit ':' (sf ++ '.' :: msf) = [sf ++ '.' :: msf] :=
      jsSplit_no_sep ':' _ h1
    have h1R : ∀ c ∈ ('0' :: '.' :: msf : List Char), c ≠ ':' := by
      intro c hc
      rcases List.mem_cons.mp hc with h | h
      · subst h; decide
      · rcases List.mem_cons.mp h with h | h
        · subst h; decide
        · exact h1 c (List.mem_append.mpr (Or.inr (List.mem_cons_of_mem '.' h)))
    have hsplitR : jsSplit ':' (p0 ++ ':' :: ('0' :: '.' :: msf)) =
        p0 :: jsSplit ':' ('0' :: '.' :: msf) := jsSplit_append ':' p0 _ h0
    have honeR : jsSplit ':' ('0' :: '.' :: msf : List Char) = ['0' :: '.' :: msf] :=
      jsSplit_no_sep ':' _ h1R
    have hdotL : jsSplit '.' (sf ++ '.' :: msf) = sf :: jsSplit '.' msf :=
      jsSplit_append '.' sf msf h2
    have hdotR : jsSplit '.' ('0' :: '.' :: msf : List Char) = ['0'] :: jsSplit '.' msf :=
      jsSplit_append '.' ['0'] msf (by intro c hc; rw [List.mem_singleton] at hc; subst hc; decide)
    simp only [parseTimeString, hsplitL, hsplitR, hone, honeR, List.length_cons,
      List.length_nil, List.headI, List.getD, List.get?, hdotL, hdotR, hnone,
      Option.getD_none, Option.getD_some,
      show jsParseInt ['0'] = some 0 from rfl]
  · intro p0 sf msf h0 h1 h2 h3 hne hnone
    have hsplitL : jsSplit ':' (p0 ++ ':' :: (sf ++ '.' :: msf)) =
        p0 :: jsSplit ':' (sf ++ '.' :: msf) := jsSplit_append ':' p0 _ h0
    have hone : jsSplit ':' (sf ++ '.' :: msf) = [sf ++ '.' :: msf] :=
      jsSplit_no_sep ':' _ h1
    have hdotL : jsSplit '.' (sf ++ '.' :: msf) = sf :: jsSplit '.' msf :=
      jsSplit_append '.' sf msf h2
    have hmsf : jsSplit '.' msf = [msf] := jsSplit_no_sep '.' msf h3
    simp only [parseTimeString, hsplitL, hone, List.length_cons, List.length_nil,
      List.headI, List.getD, List.get?, hdotL, hmsf, Option.getD_some]
    rw [if_neg (by norm_num), if_neg hne, hnone]
    rfl

/-- C10 (witness): `abc` parses to 0; `1:2.x` parses to NaN. -/
theorem C10_parse_witness :
    parseTimeString ("abc".toList) = some 0 ∧
    parseTimeString ("1:2.x".toList) = none :=
  ⟨C10_parse_behavior.1 ("abc".toList) (by decide),
    C10_parse_behavior.2.2.2 ['1'] ['2'] ['x'] (by decide) (by decide) (by decide)
      (by decide) (by decide) (by decide)⟩

end CloudStream
